import Mathlib

/-!
Verification of the effect-grpc runtime (server executor, context-transformation
pipeline, client executor, exception taxonomy and code-generator naming) against
its natural-language specification.  The TypeScript sources are shallowly
embedded: JavaScript values become the inductive `JsVal`, effectful programs
with a typed error channel become `Eff` (an `Except` enriched with an execution
trace, so that "step never executes" is expressible), and the transport error
type `ConnectError` together with the `Code` enum mirror `@connectrpc/connect`.
-/

namespace EffectGrpc

/-- The Connect-RPC status-code enum (`Code` from `@connectrpc/connect`). -/
inductive Code where
  | canceled
  | unknown
  | invalidArgument
  | deadlineExceeded
  | notFound
  | alreadyExists
  | permissionDenied
  | resourceExhausted
  | failedPrecondition
  | aborted
  | outOfRange
  | unimplemented
  | internal
  | unavailable
  | dataLoss
  | unauthenticated
  deriving DecidableEq, Repr

/-- A universe of JavaScript runtime values, as far as the embedded code
inspects them: `undef` models `undefined`/an absent optional field, `err`
models a plain `Error` carrying a message, and `connectError` models a
`ConnectError` value (`instanceof ConnectError` implies `instanceof Error`,
and the `instanceof ConnectError` branch is always tested first in the
source, so plain `err` stands for non-Connect errors). -/
inductive JsVal where
  | undef
  | str (s : String)
  | num (n : Int)
  | err (message : String)
  | connectError (rawMessage : String) (code : Code) (cause : JsVal)
  deriving DecidableEq, Repr

/-- JavaScript `String(v)` on the values of `JsVal`, as used by
`GrpcException.from` for values that are neither `ConnectError` nor `Error`. -/
def jsToString : JsVal → String
  | .undef => "undefined"
  | .str s => s
  | .num n => toString n
  | .err m => "Error: " ++ m
  | .connectError m _ _ => "ConnectError: " ++ m

/-- The transport-level error `ConnectError(message, code, metadata?, details?, cause?)`
restricted to the fields the embedded code reads: `rawMessage` is the raw
(unprefixed) message, `cause` is `JsVal.undef` when absent. -/
structure ConnectError where
  rawMessage : String
  code : Code
  cause : JsVal
  deriving DecidableEq, Repr

/-- View of a `ConnectError` as the JavaScript value it is. -/
def ConnectError.toJsVal (e : ConnectError) : JsVal :=
  .connectError e.rawMessage e.code e.cause

/-- The tagged error `GrpcException` (grpcException.ts): status `code`, `message`,
optional `description`, optional `cause` (absent = `JsVal.undef`). -/
structure GrpcException where
  code : Code
  message : String
  description : Option String
  cause : JsVal
  deriving DecidableEq, Repr

namespace GrpcException

/-- Embeds `GrpcException.create` (grpcException.internal.ts): direct constructor,
no description; an omitted optional cause is the value `undefined`. -/
def create (code : Code) (message : String) (cause : JsVal) : GrpcException :=
  ⟨code, message, none, cause⟩

/-- Embeds `GrpcException.from` (grpcException.internal.ts): a `ConnectError` keeps
its own code and raw message (the `code` argument is ignored); a plain `Error`
keeps the given code and takes the error message; any other value is
stringified via `String(cause)`.  In every branch the original value becomes
the `cause`.  (Named `from` in the source; `from` is a reserved word in Lean.) -/
def fromCause (code : Code) (cause : JsVal) : GrpcException :=
  match cause with
  | .connectError m c cc => ⟨c, m, none, .connectError m c cc⟩
  | .err m => ⟨code, m, none, .err m⟩
  | v => ⟨code, jsToString v, none, v⟩

/-- Embeds `GrpcException.withDescription` (grpcException.internal.ts). -/
def withDescription (e : GrpcException) (description : String) : GrpcException :=
  ⟨e.code, e.message, some description, e.cause⟩

/-- Embeds `GrpcException.toConnectError` (grpcException.internal.ts):
`new ConnectError(error.message, error.code, undefined, undefined, error.cause)`;
the description is dropped. -/
def toConnectError (e : GrpcException) : ConnectError :=
  ⟨e.message, e.code, e.cause⟩

end GrpcException

/-- The failure half of an Effect `Exit`: the `Cause` tree
(`Empty | Fail | Die | Interrupt | Sequential | Parallel`), with the error
channel fixed to `GrpcException` as in `ServerExecutorLive.unary`. -/
inductive EffCause where
  | empty
  | fail (error : GrpcException)
  | die (defect : JsVal)
  | interrupt
  | sequential (left right : EffCause)
  | parallel (left right : EffCause)
  deriving DecidableEq, Repr

/-- Embeds the reducer `Cause.match` from the effect library: folds the cause
tree bottom-up, handing `onSequential`/`onParallel` the already-reduced
results for the two sides. -/
def EffCause.matchWith {R : Type} (onEmpty : R) (onFail : GrpcException → R)
    (onDie : JsVal → R) (onInterrupt : R) (onSequential : R → R → R)
    (onParallel : R → R → R) : EffCause → R
  | .empty => onEmpty
  | .fail e => onFail e
  | .die d => onDie d
  | .interrupt => onInterrupt
  | .sequential l r =>
      onSequential (matchWith onEmpty onFail onDie onInterrupt onSequential onParallel l)
        (matchWith onEmpty onFail onDie onInterrupt onSequential onParallel r)
  | .parallel l r =>
      onParallel (matchWith onEmpty onFail onDie onInterrupt onSequential onParallel l)
        (matchWith onEmpty onFail onDie onInterrupt onSequential onParallel r)

/-- An Effect `Exit`: either a success value or a failure cause. -/
inductive Exit (A : Type) where
  | success (value : A)
  | failure (cause : EffCause)
  deriving DecidableEq, Repr

namespace ServerExecutorLive

/-- Embeds the `Cause.match` call inside `ServerExecutorLive.unary`
(protoRuntime.internal.ts): the handler table mapping every failure cause to
the `ConnectError` that the handler throws. -/
def causeToConnectError (c : EffCause) : ConnectError :=
  c.matchWith
    ⟨"Unknown error", Code.unknown, .undef⟩
    (fun error => GrpcException.toConnectError error)
    (fun defect => ⟨"Internal server error", Code.internal, defect⟩)
    ⟨"Request was canceled", Code.aborted, .undef⟩
    (fun left right => ⟨left.rawMessage ++ "; " ++ right.rawMessage, Code.internal, .undef⟩)
    (fun left right => ⟨left.rawMessage ++ " | " ++ right.rawMessage, Code.internal, .undef⟩)

/-- Embeds the outcome mapping of `ServerExecutorLive.unary`
(protoRuntime.internal.ts): the program has been run to an `Exit`; a success
resolves the promise with the value, a failure rejects it with the
`ConnectError` built by `causeToConnectError`. -/
def unaryOutcome {Out : Type} (exit : Exit Out) : Except ConnectError Out :=
  match exit with
  | .success v => .ok v
  | .failure cause => .error (causeToConnectError cause)

end ServerExecutorLive

/-! ## Effectful programs with an execution trace

`Eff ε α` embeds the pure-failure fragment of `Effect<α, ε>`: a program either
succeeds with a value or fails with a typed error, and additionally records a
trace (`log`) of the observable side effects it performed.  `flatMap` embeds
`Effect.flatMap`: when the first program fails, the continuation is *not* run,
so nothing it would log can appear — which is exactly how "step K+1 never
executes" becomes provable. -/

instance {ε α : Type} [DecidableEq ε] [DecidableEq α] : DecidableEq (Except ε α) := fun x y =>
  match x, y with
  | .error a, .error b =>
      if h : a = b then .isTrue (by simp [h]) else .isFalse (by simp [h])
  | .error _, .ok _ => .isFalse (by simp)
  | .ok _, .error _ => .isFalse (by simp)
  | .ok a, .ok b =>
      if h : a = b then .isTrue (by simp [h]) else .isFalse (by simp [h])

structure Eff (ε α : Type) where
  log : List Nat
  result : Except ε α
  deriving DecidableEq, Repr

namespace Eff

/-- Embeds `Effect.succeed`. -/
def pure {ε α : Type} (a : α) : Eff ε α := ⟨[], .ok a⟩

/-- Embeds `Effect.fail`. -/
def fail {ε α : Type} (e : ε) : Eff ε α := ⟨[], .error e⟩

/-- Embeds `Effect.flatMap`: sequential composition, short-circuiting on
failure (the continuation runs, and logs, only after a success). -/
def flatMap {ε α β : Type} (x : Eff ε α) (f : α → Eff ε β) : Eff ε β :=
  match x.result with
  | .error e => ⟨x.log, .error e⟩
  | .ok a => ⟨x.log ++ (f a).log, (f a).result⟩

theorem flatMap_of_error {ε α β : Type} (x : Eff ε α) (f : α → Eff ε β) (e : ε)
    (h : x.result = .error e) : x.flatMap f = ⟨x.log, .error e⟩ := by
  simp [flatMap, h]

theorem flatMap_of_ok {ε α β : Type} (x : Eff ε α) (f : α → Eff ε β) (a : α)
    (h : x.result = .ok a) : x.flatMap f = ⟨x.log ++ (f a).log, (f a).result⟩ := by
  simp [flatMap, h]

theorem pure_flatMap {ε α β : Type} (a : α) (f : α → Eff ε β) :
    (pure (ε := ε) a).flatMap f = f a := by
  simp [pure, flatMap]

theorem flatMap_assoc {ε α β γ : Type} (x : Eff ε α) (f : α → Eff ε β) (g : β → Eff ε γ) :
    (x.flatMap f).flatMap g = x.flatMap (fun a => (f a).flatMap g) := by
  rcases x with ⟨xl, xr⟩
  cases xr with
  | error e => simp [flatMap]
  | ok a =>
    cases hfa : (f a).result with
    | error e => simp [flatMap, hfa]
    | ok b => simp [flatMap, hfa, List.append_assoc]

theorem flatMap_pure {ε α : Type} (x : Eff ε α) : x.flatMap (fun a => pure a) = x := by
  rcases x with ⟨xl, xr⟩
  cases xr <;> simp [flatMap, pure]

end Eff

/-! ## The server builder and its context-transformation chain

Contexts, handler contexts and responses are JavaScript values (`JsVal`); the
error channel is `GrpcException`.  `GrpcServerBuilder` carries the composed
`transformCtx` function and the list of registered service tags, as
`ConnectEsGprcServerBuilder` (server.internal.ts) does. -/

/-- A context-transformation step as passed to
`ConnectEsGprcServerBuilder.withContextTransformer`: it receives the original
handler context and the context derived so far. -/
abbrev TransformStep := JsVal → JsVal → Eff GrpcException JsVal

structure GrpcServerBuilder where
  transformCtx : JsVal → Eff GrpcException JsVal
  services : List String

namespace ConnectEsGprcServerBuilder

/-- Embeds `ConnectEsGprcServerBuilder.empty` (server.internal.ts):
`transformCtx = () => Effect.succeed(undefined)`, no services. -/
def empty : GrpcServerBuilder := ⟨fun _ => Eff.pure .undef, []⟩

/-- Embeds `ConnectEsGprcServerBuilder.withContextTransformer`
(server.internal.ts): the new `transformCtx` first runs the existing chain,
then hands the new step both the unchanged original handler context and the
chain's output; the service record is reset to empty. -/
def withContextTransformer (b : GrpcServerBuilder) (f : TransformStep) : GrpcServerBuilder :=
  ⟨fun handlerCtx =>
      (b.transformCtx handlerCtx).flatMap (fun currentCtx => f handlerCtx currentCtx),
    []⟩

/-- Registering a sequence of steps one after the other, exactly as repeated
`withContextTransformer` calls on the running builder. -/
def registerAll (b : GrpcServerBuilder) (steps : List TransformStep) : GrpcServerBuilder :=
  steps.foldl withContextTransformer b

end ConnectEsGprcServerBuilder

/-- Embeds the program composition performed by
`ServerExecutorTransformerLive.transformContext` (protoRuntime.internal.ts):
the program handed to the underlying executor first derives the context via
`transformCtx` and only then runs the handler program on it
(`Effect.flatMap(f(handlerCtx), ctx1 => prog(req, ctx1))`). -/
def transformedProgram (b : GrpcServerBuilder) (handlerCtx : JsVal)
    (prog : JsVal → Eff GrpcException JsVal) : Eff GrpcException JsVal :=
  (b.transformCtx handlerCtx).flatMap prog

/-- Sequential-run specification of a step list: step `i` receives the
original handler context and the output of step `i - 1`; a failure stops the
run. -/
def runChain (steps : List TransformStep) (handlerCtx : JsVal) (ctx : JsVal) :
    Eff GrpcException JsVal :=
  match steps with
  | [] => Eff.pure ctx
  | f :: rest => (f handlerCtx ctx).flatMap (runChain rest handlerCtx)

/-- A plain (untraced) step: original handler context and current context to
either a next context or a `GrpcException`. -/
abbrev PlainStep := JsVal → JsVal → Except GrpcException JsVal

/-- Instrumented steps: step number `i` logs the entry `i` when (and only
when) it actually executes. -/
def tracedFrom (i : Nat) : List PlainStep → List TransformStep
  | [] => []
  | f :: rest => (fun h c => ⟨[i], f h c⟩) :: tracedFrom (i + 1) rest

theorem tracedFrom_append (i : Nat) (fs gs : List PlainStep) :
    tracedFrom i (fs ++ gs) = tracedFrom i fs ++ tracedFrom (i + fs.length) gs := by
  induction fs generalizing i with
  | nil => simp [tracedFrom]
  | cons f rest ih =>
    simp only [List.cons_append, tracedFrom, List.length_cons, List.append_eq]
    rw [ih (i + 1), show i + (rest.length + 1) = i + 1 + rest.length from by omega]

theorem runChain_append (fs gs : List TransformStep) (h c : JsVal) :
    runChain (fs ++ gs) h c = (runChain fs h c).flatMap (runChain gs h) := by
  induction fs generalizing c with
  | nil => simp only [List.nil_append, runChain, Eff.pure_flatMap]
  | cons f rest ih =>
    simp only [List.cons_append, runChain]
    rw [Eff.flatMap_assoc]
    congr 1
    funext a
    exact ih a

theorem registerAll_transformCtx (steps : List TransformStep) (b : GrpcServerBuilder)
    (h : JsVal) :
    (ConnectEsGprcServerBuilder.registerAll b steps).transformCtx h
      = (b.transformCtx h).flatMap (fun c => runChain steps h c) := by
  induction steps generalizing b with
  | nil =>
    simp only [ConnectEsGprcServerBuilder.registerAll, List.foldl_nil, runChain]
    rw [Eff.flatMap_pure]
  | cons f rest ih =>
    simp only [ConnectEsGprcServerBuilder.registerAll, List.foldl_cons] at ih ⊢
    rw [ih]
    simp only [ConnectEsGprcServerBuilder.withContextTransformer, Eff.flatMap_assoc]
    congr 1

/-! ## Type-level service registration protocol

TypeScript enforces tag uniqueness at compile time through the conditional
types in server.ts.  The embedding evaluates those type-level functions on the
(string) tag and the current union of registered tags, rendered as a list:
`none` models the parameter type collapsing to `never`, i.e. the call is
rejected by the compiler before `build()` can ever run. -/

namespace TypeLevel

/-- Embeds the conditional type `UniqueTag<S, Services>` (server.ts): with no
registered services any tag is accepted; otherwise a tag already present in
`Services` makes the parameter type `never` (rejected), any other tag is
accepted. -/
def UniqueTag (tag : String) (services : List String) : Option String :=
  if services = [] then some tag
  else if tag ∈ services then none
  else some tag

/-- Embeds the conditional type `ConcatServiceTags<S, Services>` (server.ts):
the union of the new tag with the already-registered ones. -/
def ConcatServiceTags (tag : String) (services : List String) : List String :=
  if services = [] then [tag] else tag :: services

/-- One `withService` call at the type level: accepted only when `UniqueTag`
does not collapse to `never`, in which case the service union grows by the
tag. -/
def withService (services : List String) (tag : String) : Option (List String) :=
  match UniqueTag tag services with
  | none => none
  | some t => some (ConcatServiceTags t services)

/-- A whole chain of `withService` calls starting from the empty builder
(`Services = never`); `none` as soon as one call is rejected. -/
def registerServices (tags : List String) : Option (List String) :=
  tags.foldlM withService []

/-- Embeds the `this`-parameter constraint of `build` (server.ts):
`[Services] extends [never] ? never : This` — callable only once at least one
service is registered. -/
def buildAllowed (services : List String) : Bool :=
  !services.isEmpty

/-- Embeds the `this`-parameter constraint of `withContextTransformer`
(server.ts): `[Services] extends [never] ? This : never` — callable only
while zero services are registered. -/
def withContextTransformerAllowed (services : List String) : Bool :=
  services.isEmpty

end TypeLevel

/-! ## Client-side executor, span configuration and trace-context injection -/

/-- The RPC kinds of `@bufbuild/protobuf` method descriptors. -/
inductive MethodKind where
  | unary
  | serverStreaming
  | clientStreaming
  | biDiStreaming
  deriving DecidableEq, Repr

/-- A protobuf method descriptor, restricted to the fields the client reads:
`localName` is the camelCase key in `serviceDefinition.method`, `name` the
proto method name. -/
structure MethodDesc where
  localName : String
  name : String
  methodKind : MethodKind
  deriving DecidableEq, Repr

/-- A protobuf service descriptor (`GenService`): the fully qualified
`typeName` and the keyed method collection. -/
structure ServiceDesc where
  typeName : String
  method : List MethodDesc
  deriving DecidableEq, Repr

/-- The lookup `serviceDefinition.method[methodName]`. -/
def ServiceDesc.lookupMethod (svc : ServiceDesc) (methodName : String) : Option MethodDesc :=
  svc.method.find? (fun m => m.localName == methodName)

/-- A `Headers` object: an association list of header entries.  The fetch
`Headers` class lowercases keys, so keys are modeled already normalized. -/
abbrev Headers := List (String × String)

/-- The `Headers.prototype.get` lookup. -/
def headersGet : Headers → String → Option String
  | [], _ => none
  | (k, v) :: rest, key => if k = key then some v else headersGet rest key

/-- The `Headers.prototype.set` update (replace any existing entry for the
key, the entry position being irrelevant to `get`).  This is what the
`headerSetter` adapter in client.internal.ts calls. -/
def headersSet (hs : Headers) (key value : String) : Headers :=
  hs.filter (fun p => p.1 != key) ++ [(key, value)]

/-- The fields of an Effect tracer `Span` that the client reads. -/
structure Span where
  traceId : String
  spanId : String
  sampled : Bool
  deriving DecidableEq, Repr

/-- An OpenTelemetry `SpanContext`, as constructed in `injectTraceContext`. -/
structure SpanContext where
  traceId : String
  spanId : String
  traceFlags : Nat
  isRemote : Bool
  traceState : Option String
  deriving DecidableEq, Repr

/-- Embeds the object literal in `injectTraceContext` (client.internal.ts):
`traceFlags` is `TraceFlags.SAMPLED = 1` when the span is sampled and
`TraceFlags.NONE = 0` otherwise, `isRemote` is `false` because the span was
created locally, and no `traceState` field is set. -/
def spanContextOf (span : Span) : SpanContext :=
  ⟨span.traceId, span.spanId, if span.sampled then 1 else 0, false, none⟩

/-- Lowercase-hex check used by the OpenTelemetry id validators. -/
def isHexLowerChar (c : Char) : Bool :=
  c.isDigit || ("abcdef".toList.contains c)

/-- Embeds `isValidTraceId` (`@opentelemetry/api`): 32 lowercase hex digits,
not all zero. -/
def isValidTraceId (t : String) : Bool :=
  t.length == 32 && t.toList.all isHexLowerChar && t.toList.any (fun c => c ≠ '0')

/-- Embeds `isValidSpanId` (`@opentelemetry/api`): 16 lowercase hex digits,
not all zero. -/
def isValidSpanId (s : String) : Bool :=
  s.length == 16 && s.toList.all isHexLowerChar && s.toList.any (fun c => c ≠ '0')

/-- Embeds `isSpanContextValid` (`@opentelemetry/api`). -/
def isSpanContextValid (sc : SpanContext) : Bool :=
  isValidTraceId sc.traceId && isValidSpanId sc.spanId

/-- The two-digit flags field written by the propagator:
`"0" + traceFlags.toString(16)` for the flag values 0 and 1. -/
def traceFlagsHex (flags : Nat) : String :=
  "0" ++ String.mk (Nat.toDigits 16 flags)

/-- Embeds `W3CTraceContextPropagator.inject` (`@opentelemetry/core`, an
external collaborator, modeled from the W3C Trace Context behavior it
implements): with a valid span context it writes the `traceparent` header
`00-traceId-spanId-flags` via the setter, and writes a `tracestate` header
only when the span context carries a trace state; with an invalid span
context it writes nothing. -/
def w3cInject (sc : SpanContext) (carrier : Headers) : Headers :=
  if isSpanContextValid sc then
    let traceParent := "00-" ++ sc.traceId ++ "-" ++ sc.spanId ++ "-" ++ traceFlagsHex sc.traceFlags
    let c1 := headersSet carrier "traceparent" traceParent
    match sc.traceState with
    | some ts => headersSet c1 "tracestate" ts
    | none => c1
  else carrier

/-- The body of the `Either.try` block in `injectTraceContext`
(client.internal.ts): copy the caller headers (`new Headers(headers)`, the
identity on this model), build the span context and run the propagator.  The
pure model never throws, hence always `.ok`. -/
def tryInjectBody (span : Span) (headers : Headers) : Except JsVal Headers :=
  .ok (w3cInject (spanContextOf span) headers)

/-- Embeds the `Either.try ... |> Either.getOrElse(() => headers)` shape of
`injectTraceContext` (client.internal.ts), abstracted over the try block so
that a throwing body (an arbitrary exception value) can be considered: on any
thrown exception the original headers are returned unchanged. -/
def injectTraceContextWith (body : Span → Headers → Except JsVal Headers)
    (span : Span) (headers : Headers) : Headers :=
  match body span headers with
  | .ok h => h
  | .error _ => headers

/-- Embeds `injectTraceContext` (client.internal.ts). -/
def injectTraceContext (span : Span) (headers : Headers) : Headers :=
  injectTraceContextWith tryInjectBody span headers

/-- Embeds the header computation of the produced unary method
(client.internal.ts lines 166-170): `Effect.currentSpan` either yields the
active span, whose trace context is injected into the caller headers, or
fails, in which case `catchAll` falls back to the caller headers untouched. -/
def clientRequestHeaders (currentSpan : Option Span) (baseHeaders : Headers) : Headers :=
  match currentSpan with
  | some span => injectTraceContext span baseHeaders
  | none => baseHeaders

/-- The statically-known span configuration `Effect.fn(name, { attributes })`
of a produced client method. -/
structure ClientSpanConfig where
  spanName : String
  attributes : List (String × String)
  deriving DecidableEq, Repr

/-- Embeds `makeExecutorMethod` (client.internal.ts): looks the method up in
the service definition, and only for the `unary` kind produces a binding,
whose span is named `GrpcClient.makeUnaryRequest(typeName/MethodName)` with
the `rpc.system` / `rpc.service` / `rpc.method` attributes; every other kind
falls to the `default: return null` branch.  (A name that is not a method of
the service is unreachable through the typed API and is mapped to `none`.) -/
def makeExecutorMethod (svc : ServiceDesc) (methodName : String) : Option ClientSpanConfig :=
  match svc.lookupMethod methodName with
  | none => none
  | some method =>
    let fullMethodName := svc.typeName ++ "/" ++ method.name
    match method.methodKind with
    | .unary =>
        some ⟨"GrpcClient.makeUnaryRequest(" ++ fullMethodName ++ ")",
          [("rpc.system", "grpc"), ("rpc.service", svc.typeName), ("rpc.method", method.name)]⟩
    | _ => none

/-- Embeds the `methodNames.reduce` in `liveGrpcClientRuntime.makeExecutor`
(client.internal.ts): each requested method name contributes its binding to
the executor object, and a `null` binding (non-unary kind) leaves the
accumulator untouched, so the name is simply absent. -/
def makeExecutor (svc : ServiceDesc) (methodNames : List String) :
    List (String × ClientSpanConfig) :=
  methodNames.foldl
    (fun acc methodName =>
      match makeExecutorMethod svc methodName with
      | none => acc
      | some m => acc ++ [(methodName, m)])
    []

/-- Property lookup on the produced executor object. -/
def lookupBinding : List (String × ClientSpanConfig) → String → Option ClientSpanConfig
  | [], _ => none
  | (k, v) :: rest, name => if k = name then some v else lookupBinding rest name

/-! ## Code-generator naming -/

/-- The JavaScript `name.endsWith(suffix)` test, computed on the character
sequences of the two strings. -/
def strEndsWith (name suffix : String) : Bool :=
  suffix.data.isSuffixOf name.data

/-- Embeds `appendSuffixIfNeeded` (the codegen plugin): append the suffix only
when the name does not already end with it. -/
def appendSuffixIfNeeded (name suffix : String) : String :=
  if strEndsWith name suffix then name else name ++ suffix

/-- Embeds `serviceTagSymbol = safeIdentifier(serviceName + "Tag")` with
`serviceName = appendSuffixIfNeeded(service.name, "Service")` (the codegen
plugin); `safeIdentifier` is the identity on identifiers that are not
reserved words, which these generated names never are. -/
def serviceTagSymbol (protoServiceName : String) : String :=
  appendSuffixIfNeeded protoServiceName "Service" ++ "Tag"

/-- Embeds `clientTagSymbol = safeIdentifier(clientName + "Tag")` with
`clientName = appendSuffixIfNeeded(service.name, "Client")` (the codegen
plugin). -/
def clientTagSymbol (protoServiceName : String) : String :=
  appendSuffixIfNeeded protoServiceName "Client" ++ "Tag"

/-! ## Server-side span (modelled from the spec) -/

/-- A tracing span: name plus attributes. -/
structure SpanInfo where
  name : String
  attributes : List (String × String)
  deriving DecidableEq, Repr

/-- Modelled from the spec: the current server executor `unary` variant that
takes a `methodFullName` first argument (the variant the generated code calls
as `executor.unary(\x7b serviceId \x7d/Method, ...)` and that tracing.test.ts
asserts) is not among the provided source files; per the spec it wraps the
handler program in a span named exactly `methodFullName` with attributes
`method = methodFullName` and `protocol = "gRPC"`. -/
def serverUnarySpan (methodFullName : String) : SpanInfo :=
  ⟨methodFullName, [("method", methodFullName), ("protocol", "gRPC")]⟩

/-- Modelled from the spec: the same attributes are attached as structured log
annotations for the duration of the call. -/
def serverUnaryLogAnnotations (methodFullName : String) : List (String × String) :=
  (serverUnarySpan methodFullName).attributes

/-! ## Supporting lemmas -/

theorem headersGet_append (l1 l2 : Headers) (key : String) :
    headersGet (l1 ++ l2) key
      = match headersGet l1 key with
        | some v => some v
        | none => headersGet l2 key := by
  induction l1 with
  | nil => simp [headersGet]
  | cons kv rest ih =>
    rcases kv with ⟨k, v⟩
    by_cases hk : k = key
    · simp [headersGet, hk]
    · simp [headersGet, hk, ih]

theorem headersGet_filter_ne (hs : Headers) (k key : String) (hne : key ≠ k) :
    headersGet (hs.filter (fun p => p.1 != k)) key = headersGet hs key := by
  induction hs with
  | nil => rfl
  | cons kv rest ih =>
    rcases kv with ⟨a, b⟩
    by_cases ha : a = k
    · have h1 : ¬a = key := by
        rw [ha]
        exact Ne.symm hne
      simp_all [headersGet]
    · by_cases hakey : a = key <;> simp_all [headersGet]

theorem headersGet_filter_self (hs : Headers) (k : String) :
    headersGet (hs.filter (fun p => p.1 != k)) k = none := by
  induction hs with
  | nil => rfl
  | cons kv rest ih =>
    rcases kv with ⟨a, b⟩
    by_cases ha : a = k <;> simp_all [headersGet]

theorem headersGet_set_self (hs : Headers) (k v : String) :
    headersGet (headersSet hs k v) k = some v := by
  rw [headersSet, headersGet_append, headersGet_filter_self]
  simp [headersGet]

theorem headersGet_set_ne (hs : Headers) (k key v : String) (hne : key ≠ k) :
    headersGet (headersSet hs k v) key = headersGet hs key := by
  rw [headersSet, headersGet_append, headersGet_filter_ne hs k key hne]
  cases hx : headersGet hs key with
  | some w => simp
  | none => simp [headersGet, Ne.symm hne]

theorem lookupBinding_append_ne (acc : List (String × ClientSpanConfig)) (n name : String)
    (m : ClientSpanConfig) (hne : n ≠ name) :
    lookupBinding (acc ++ [(n, m)]) name = lookupBinding acc name := by
  induction acc with
  | nil => simp [lookupBinding, hne]
  | cons kv rest ih =>
    rcases kv with ⟨k, v⟩
    by_cases hk : k = name
    · simp [lookupBinding, hk]
    · simp [lookupBinding, hk, ih]

theorem makeExecutor_foldl_absent (svc : ServiceDesc) (names : List String)
    (acc : List (String × ClientSpanConfig)) (name : String)
    (hnone : makeExecutorMethod svc name = none)
    (hacc : lookupBinding acc name = none) :
    lookupBinding
      (names.foldl
        (fun acc' methodName =>
          match makeExecutorMethod svc methodName with
          | none => acc'
          | some m => acc' ++ [(methodName, m)])
        acc)
      name = none := by
  induction names generalizing acc with
  | nil => simpa using hacc
  | cons n rest ih =>
    simp only [List.foldl_cons]
    apply ih
    cases hm : makeExecutorMethod svc n with
    | none => simpa using hacc
    | some m =>
      have hne : n ≠ name := by
        intro hh
        rw [hh, hnone] at hm
        exact Option.noConfusion hm
      simp only [hm]
      rw [lookupBinding_append_ne acc n name m hne]
      exact hacc

theorem TypeLevel.withService_nodup (services : List String) (tag : String)
    (result : List String) (hnd : services.Nodup)
    (hsome : TypeLevel.withService services tag = some result) : result.Nodup := by
  cases services with
  | nil =>
    simp [TypeLevel.withService, TypeLevel.UniqueTag, TypeLevel.ConcatServiceTags] at hsome
    rw [← hsome]
    simp
  | cons s rest =>
    by_cases hmem : tag ∈ s :: rest
    · simp [TypeLevel.withService, TypeLevel.UniqueTag, hmem] at hsome
    · simp [TypeLevel.withService, TypeLevel.UniqueTag, hmem,
        TypeLevel.ConcatServiceTags] at hsome
      rw [← hsome]
      exact List.Nodup.cons hmem hnd

theorem TypeLevel.registerServices_aux (tags : List String) (acc result : List String)
    (hnd : acc.Nodup) (hsome : tags.foldlM TypeLevel.withService acc = some result) :
    result.Nodup := by
  induction tags generalizing acc with
  | nil =>
    simp [List.foldlM] at hsome
    rw [← hsome]
    exact hnd
  | cons t rest ih =>
    simp only [List.foldlM_cons, Option.bind_eq_bind] at hsome
    cases hstep : TypeLevel.withService acc t with
    | none => rw [hstep] at hsome; simp at hsome
    | some acc1 =>
      rw [hstep] at hsome
      simp only [Option.some_bind] at hsome
      exact ih acc1 (TypeLevel.withService_nodup acc t acc1 hnd hstep) hsome

/-! ## Claim theorems -/

/-- C1: the outcome mapping of `ServerExecutorLive.unary` is exhaustive and
exact — a success is returned as-is; a typed `GrpcException` failure becomes a
`ConnectError` with the same code, message and cause; a defect becomes an
Internal `ConnectError` with the defect as cause; an interruption becomes an
Aborted `ConnectError`; a sequential (resp. parallel) composite failure
becomes an Internal `ConnectError` whose message joins the two constituent
messages with "; " (resp. " | "); an empty cause becomes an Unknown
`ConnectError`. -/
theorem unary_outcome_mapping :
    (∀ (Out : Type) (v : Out),
        ServerExecutorLive.unaryOutcome (Exit.success v) = .ok v)
    ∧ (∀ (Out : Type) (e : GrpcException),
        @ServerExecutorLive.unaryOutcome Out (Exit.failure (.fail e))
          = .error ⟨e.message, e.code, e.cause⟩)
    ∧ (∀ (Out : Type) (d : JsVal),
        @ServerExecutorLive.unaryOutcome Out (Exit.failure (.die d))
          = .error ⟨"Internal server error", Code.internal, d⟩)
    ∧ (∀ (Out : Type),
        @ServerExecutorLive.unaryOutcome Out (Exit.failure .interrupt)
          = .error ⟨"Request was canceled", Code.aborted, .undef⟩)
    ∧ (∀ (Out : Type) (l r : EffCause),
        @ServerExecutorLive.unaryOutcome Out (Exit.failure (.sequential l r))
          = .error ⟨(ServerExecutorLive.causeToConnectError l).rawMessage ++ "; "
                ++ (ServerExecutorLive.causeToConnectError r).rawMessage,
              Code.internal, .undef⟩)
    ∧ (∀ (Out : Type) (l r : EffCause),
        @ServerExecutorLive.unaryOutcome Out (Exit.failure (.parallel l r))
          = .error ⟨(ServerExecutorLive.causeToConnectError l).rawMessage ++ " | "
                ++ (ServerExecutorLive.causeToConnectError r).rawMessage,
              Code.internal, .undef⟩)
    ∧ (∀ (Out : Type),
        @ServerExecutorLive.unaryOutcome Out (Exit.failure .empty)
          = .error ⟨"Unknown error", Code.unknown, .undef⟩) := by
  refine ⟨fun Out v => rfl, fun Out e => rfl, fun Out d => rfl, fun Out => rfl,
    fun Out l r => ?_, fun Out l r => ?_, fun Out => rfl⟩ <;>
    simp [ServerExecutorLive.unaryOutcome, ServerExecutorLive.causeToConnectError,
      EffCause.matchWith]

/-- C4: (modelled from the spec, the executor variant taking `methodFullName`
is absent from the provided sources) the server executor wraps the handler
program in a span named exactly the full method name
`service.Name/MethodName`, with attributes `method` = the full method name and
`protocol` = "gRPC", attached as structured log annotations; in particular for
the method asserted by tracing.test.ts. -/
theorem serverUnary_span_contract :
    (∀ service method : String,
        serverUnarySpan (service ++ "/" ++ method)
          = ⟨service ++ "/" ++ method,
              [("method", service ++ "/" ++ method), ("protocol", "gRPC")]⟩)
    ∧ (∀ methodFullName : String,
        serverUnaryLogAnnotations methodFullName
          = [("method", methodFullName), ("protocol", "gRPC")])
    ∧ serverUnarySpan "com.example.v1.HelloWorldAPI/GetGreeting"
        = ⟨"com.example.v1.HelloWorldAPI/GetGreeting",
            [("method", "com.example.v1.HelloWorldAPI/GetGreeting"), ("protocol", "gRPC")]⟩ :=
  ⟨fun _ _ => rfl, fun _ => rfl, rfl⟩

/-- C5: `GrpcException.from(code, cause)` normalizes its cause — a
`ConnectError` keeps its own code and raw message (the `code` argument is
ignored); a plain `Error` keeps the given code and takes the error message,
preserving the error as cause; any other value is stringified into the
message. -/
theorem from_normalizes_cause :
    (∀ (k : Code) (m : String) (c : Code) (cc : JsVal),
        GrpcException.fromCause k (.connectError m c cc)
          = { code := c, message := m, description := none,
              cause := .connectError m c cc })
    ∧ (∀ (k k' : Code) (m : String) (c : Code) (cc : JsVal),
        GrpcException.fromCause k (.connectError m c cc)
          = GrpcException.fromCause k' (.connectError m c cc))
    ∧ (∀ (k : Code) (m : String),
        GrpcException.fromCause k (.err m)
          = { code := k, message := m, description := none, cause := .err m })
    ∧ (∀ (k : Code) (v : JsVal),
        (∀ m c cc, v ≠ .connectError m c cc) →
        (∀ m, v ≠ .err m) →
        GrpcException.fromCause k v
          = { code := k, message := jsToString v, description := none, cause := v }) := by
  refine ⟨fun k m c cc => rfl, fun k k' m c cc => rfl, fun k m => rfl, fun k v h1 h2 => ?_⟩
  cases v with
  | undef => rfl
  | str s => rfl
  | num n => rfl
  | err m => exact absurd rfl (h2 m)
  | connectError m c cc => exact absurd rfl (h1 m c cc)

/-- Witness for C5 at a concrete non-error cause. -/
theorem from_normalizes_cause_witness :
    (∀ m c cc, JsVal.str "boom" ≠ .connectError m c cc)
    ∧ (∀ m, JsVal.str "boom" ≠ JsVal.err m)
    ∧ GrpcException.fromCause Code.internal (.str "boom")
        = { code := Code.internal, message := jsToString (.str "boom"),
            description := none, cause := .str "boom" } :=
  ⟨fun _ _ _ h => JsVal.noConfusion h, fun _ h => JsVal.noConfusion h,
    from_normalizes_cause.2.2.2 Code.internal (.str "boom")
      (fun _ _ _ h => JsVal.noConfusion h) (fun _ h => JsVal.noConfusion h)⟩

/-- C7: `withContextTransformer` is only callable (at the type level) while
zero services are registered; the returned builder carries the new composed
transformation chain and an empty service set. -/
theorem withContextTransformer_resets_services :
    (TypeLevel.withContextTransformerAllowed [] = true)
    ∧ (∀ (s : String) (ss : List String),
        TypeLevel.withContextTransformerAllowed (s :: ss) = false)
    ∧ (∀ (b : GrpcServerBuilder) (f : TransformStep),
        (ConnectEsGprcServerBuilder.withContextTransformer b f).services = [])
    ∧ (∀ (b : GrpcServerBuilder) (f : TransformStep) (h : JsVal),
        (ConnectEsGprcServerBuilder.withContextTransformer b f).transformCtx h
          = (b.transformCtx h).flatMap (fun c => f h c)) :=
  ⟨rfl, fun _ _ => rfl, fun _ _ => rfl, fun _ _ _ => rfl⟩

/-- C9: the code generator never duplicates the "Service" (or "Client")
suffix: a name already ending in the suffix is kept as-is, any other name
gets the suffix appended; in particular a proto service named
"HelloWorldService" yields the tag identifier "HelloWorldServiceTag" and a
proto service named "NamingTest" yields "NamingTestServiceTag". -/
theorem naming_no_suffix_duplication :
    serviceTagSymbol "HelloWorldService" = "HelloWorldServiceTag"
    ∧ serviceTagSymbol "NamingTest" = "NamingTestServiceTag"
    ∧ clientTagSymbol "HelloWorldClient" = "HelloWorldClientTag"
    ∧ clientTagSymbol "NamingTest" = "NamingTestClientTag"
    ∧ (∀ name suffix : String,
        strEndsWith name suffix = true → appendSuffixIfNeeded name suffix = name)
    ∧ (∀ name suffix : String,
        strEndsWith name suffix = false → appendSuffixIfNeeded name suffix = name ++ suffix) := by
  refine ⟨by decide, by decide, by decide, by decide,
    fun name suffix h => ?_, fun name suffix h => ?_⟩ <;>
    simp [appendSuffixIfNeeded, h]

/-- Witness for C9 at concrete names with and without the suffix. -/
theorem naming_no_suffix_duplication_witness :
    strEndsWith "HelloWorldService" "Service" = true
    ∧ appendSuffixIfNeeded "HelloWorldService" "Service" = "HelloWorldService"
    ∧ strEndsWith "NamingTest" "Service" = false
    ∧ appendSuffixIfNeeded "NamingTest" "Service" = "NamingTest" ++ "Service" :=
  ⟨by decide,
    naming_no_suffix_duplication.2.2.2.2.1 "HelloWorldService" "Service" (by decide),
    by decide,
    naming_no_suffix_duplication.2.2.2.2.2 "NamingTest" "Service" (by decide)⟩

/-- C10: client-side trace-context injection never fails the RPC — the
function is total, an exception thrown anywhere inside the try block makes it
return the caller headers unchanged, a normally computed result is returned
as-is, and the produced request headers are exactly what this function
returns when a span is active. -/
theorem injectTraceContext_total :
    ∀ (body : Span → Headers → Except JsVal Headers) (span : Span) (headers : Headers),
      (∀ ex : JsVal, body span headers = .error ex →
          injectTraceContextWith body span headers = headers)
      ∧ (∀ h' : Headers, body span headers = .ok h' →
          injectTraceContextWith body span headers = h')
      ∧ clientRequestHeaders (some span) headers = injectTraceContext span headers := by
  intro body span headers
  refine ⟨fun ex hex => ?_, fun h' hok => ?_, rfl⟩
  · simp [injectTraceContextWith, hex]
  · simp [injectTraceContextWith, hok]

/-- Witness for C10 with a try block that throws. -/
theorem injectTraceContext_total_witness :
    (fun (_ : Span) (_ : Headers) => (.error .undef : Except JsVal Headers))
        ⟨"t", "s", false⟩ [("authorization", "token")] = .error .undef
    ∧ injectTraceContextWith
        (fun (_ : Span) (_ : Headers) => (.error .undef : Except JsVal Headers))
        ⟨"t", "s", false⟩ [("authorization", "token")]
      = [("authorization", "token")] :=
  ⟨rfl,
    (injectTraceContext_total
      (fun (_ : Span) (_ : Headers) => (.error .undef : Except JsVal Headers))
      ⟨"t", "s", false⟩ [("authorization", "token")]).1 .undef rfl⟩

/-- C6: a second service with a tag identical to an already-registered one is
rejected at the type level before `build()` can be called, and consequently
every builder reachable through accepted `withService` calls holds
pairwise-distinct tags. -/
theorem duplicate_tag_rejected :
    (∀ (services : List String) (tag : String), tag ∈ services →
        TypeLevel.withService services tag = none)
    ∧ (∀ (tags result : List String),
        TypeLevel.registerServices tags = some result → result.Nodup) := by
  constructor
  · intro services tag hmem
    cases services with
    | nil => cases hmem
    | cons s rest => simp [TypeLevel.withService, TypeLevel.UniqueTag, hmem]
  · intro tags result hsome
    rw [TypeLevel.registerServices] at hsome
    exact TypeLevel.registerServices_aux tags [] result List.nodup_nil hsome

/-- Witness for C6: re-adding the registered tag is rejected; a successful
registration chain has distinct tags. -/
theorem duplicate_tag_rejected_witness :
    ("HelloWorldAPI" ∈ ["HelloWorldAPI"])
    ∧ TypeLevel.withService ["HelloWorldAPI"] "HelloWorldAPI" = none
    ∧ TypeLevel.registerServices ["HelloWorldAPI", "PingPongAPI"]
        = some ["PingPongAPI", "HelloWorldAPI"]
    ∧ List.Nodup ["PingPongAPI", "HelloWorldAPI"] :=
  ⟨by decide, duplicate_tag_rejected.1 ["HelloWorldAPI"] "HelloWorldAPI" (by decide),
    by decide,
    duplicate_tag_rejected.2 ["HelloWorldAPI", "PingPongAPI"] ["PingPongAPI", "HelloWorldAPI"]
      (by decide)⟩

/-- C8: a requested method whose kind is not unary is bound as a no-op — its
binding is `null` and the method is absent from the produced executor object —
with no error raised at construction. -/
theorem nonUnary_binding_is_noop :
    ∀ (svc : ServiceDesc) (methodNames : List String) (name : String) (md : MethodDesc),
      svc.lookupMethod name = some md → md.methodKind ≠ .unary →
      makeExecutorMethod svc name = none
      ∧ lookupBinding (makeExecutor svc methodNames) name = none := by
  intro svc methodNames name md hlook hkind
  have hnone : makeExecutorMethod svc name = none := by
    cases hk : md.methodKind with
    | unary => exact absurd hk hkind
    | serverStreaming => simp [makeExecutorMethod, hlook, hk]
    | clientStreaming => simp [makeExecutorMethod, hlook, hk]
    | biDiStreaming => simp [makeExecutorMethod, hlook, hk]
  exact ⟨hnone, makeExecutor_foldl_absent svc methodNames [] name hnone rfl⟩

/-- The service used by the C8 witness: a unary and a server-streaming
method. -/
def svcC8 : ServiceDesc :=
  ⟨"com.example.v1.HelloWorldAPI",
    [⟨"getGreeting", "GetGreeting", .unary⟩,
      ⟨"streamGreetings", "StreamGreetings", .serverStreaming⟩]⟩

/-- Witness for C8: binding the streaming method of `svcC8` leaves it absent
from the executor while construction succeeds. -/
theorem nonUnary_binding_is_noop_witness :
    svcC8.lookupMethod "streamGreetings"
        = some ⟨"streamGreetings", "StreamGreetings", .serverStreaming⟩
    ∧ MethodKind.serverStreaming ≠ MethodKind.unary
    ∧ makeExecutorMethod svcC8 "streamGreetings" = none
    ∧ lookupBinding (makeExecutor svcC8 ["getGreeting", "streamGreetings"])
        "streamGreetings" = none := by
  refine ⟨by decide, by decide, ?_, ?_⟩
  · exact (nonUnary_binding_is_noop svcC8 ["getGreeting", "streamGreetings"]
      "streamGreetings" ⟨"streamGreetings", "StreamGreetings", .serverStreaming⟩
      (by decide) (by decide)).1
  · exact (nonUnary_binding_is_noop svcC8 ["getGreeting", "streamGreetings"]
      "streamGreetings" ⟨"streamGreetings", "StreamGreetings", .serverStreaming⟩
      (by decide) (by decide)).2

/-- C2: the registered context-transformation chain runs the steps strictly
in registration order — the built chain equals the sequential run in which
each step receives the never-changing original handler context and the output
of its predecessor — and when the step after the `fs` prefix fails with a
`GrpcException`, the whole request program fails with exactly that exception
and the execution trace is exactly the step numbers `0 .. fs.length` — the
remaining steps and the handler program (trace mark `fs.length + 1 +
gs.length`) never execute. -/
theorem context_chain_order_and_short_circuit
    (fs gs : List PlainStep) (fK : PlainStep) (p : JsVal → Except GrpcException JsVal)
    (h c : JsVal) (e : GrpcException)
    (hpre : runChain (tracedFrom 0 fs) h .undef = ⟨List.range fs.length, .ok c⟩)
    (hfail : fK h c = .error e) :
    (∀ (steps : List TransformStep) (h' : JsVal),
        (ConnectEsGprcServerBuilder.registerAll ConnectEsGprcServerBuilder.empty
            steps).transformCtx h'
          = runChain steps h' .undef)
    ∧ transformedProgram
        (ConnectEsGprcServerBuilder.registerAll ConnectEsGprcServerBuilder.empty
          (tracedFrom 0 (fs ++ fK :: gs)))
        h (fun ctx => ⟨[fs.length + 1 + gs.length], p ctx⟩)
      = ⟨List.range (fs.length + 1), .error e⟩
    ∧ (∀ j : Nat,
        j ∈ (transformedProgram
            (ConnectEsGprcServerBuilder.registerAll ConnectEsGprcServerBuilder.empty
              (tracedFrom 0 (fs ++ fK :: gs)))
            h (fun ctx => ⟨[fs.length + 1 + gs.length], p ctx⟩)).log
          ↔ j ≤ fs.length) := by
  have hchain0 : ∀ (steps : List TransformStep) (h' : JsVal),
      (ConnectEsGprcServerBuilder.registerAll ConnectEsGprcServerBuilder.empty
          steps).transformCtx h'
        = runChain steps h' .undef := by
    intro steps h'
    rw [registerAll_transformCtx]
    have hempty : ConnectEsGprcServerBuilder.empty.transformCtx h' = Eff.pure .undef := rfl
    rw [hempty, Eff.pure_flatMap]
  have hinner : runChain (tracedFrom fs.length (fK :: gs)) h c
      = ⟨[fs.length], .error e⟩ := by
    simp only [tracedFrom, runChain]
    rw [Eff.flatMap_of_error ⟨[fs.length], fK h c⟩ _ e hfail]
  have hmain : transformedProgram
      (ConnectEsGprcServerBuilder.registerAll ConnectEsGprcServerBuilder.empty
        (tracedFrom 0 (fs ++ fK :: gs)))
      h (fun ctx => ⟨[fs.length + 1 + gs.length], p ctx⟩)
    = ⟨List.range (fs.length + 1), .error e⟩ := by
    rw [transformedProgram, hchain0]
    rw [tracedFrom_append, Nat.zero_add, runChain_append, hpre]
    rw [Eff.flatMap_of_ok ⟨List.range fs.length, .ok c⟩ _ c rfl, hinner]
    rw [Eff.flatMap_of_error _ _ e rfl]
    rw [← List.range_succ]
  refine ⟨hchain0, hmain, fun j => ?_⟩
  rw [hmain]
  simp only [List.mem_range]
  omega

/-- The successful first step of the C2 witness chain. -/
def c2fs : List PlainStep := [fun _ _ => .ok (.str "derived1")]

/-- The failing second step of the C2 witness chain. -/
def c2fK : PlainStep :=
  fun _ _ => .error (GrpcException.create Code.unauthenticated "no auth" .undef)

/-- The third step of the C2 witness chain, which must never run. -/
def c2gs : List PlainStep := [fun _ ctx => .ok ctx]

/-- The handler program of the C2 witness, which must never run. -/
def c2p : JsVal → Except GrpcException JsVal := fun ctx => .ok ctx

/-- Witness for C2: with the three-step chain `c2fs ++ c2fK :: c2gs`, the
first step succeeds, the second fails, and the composed request program fails
with that exception having executed exactly steps 0 and 1. -/
theorem context_chain_short_circuit_witness :
    runChain (tracedFrom 0 c2fs) (.str "handlerCtx") .undef
        = ⟨List.range c2fs.length, .ok (.str "derived1")⟩
    ∧ c2fK (.str "handlerCtx") (.str "derived1")
        = .error (GrpcException.create Code.unauthenticated "no auth" .undef)
    ∧ transformedProgram
        (ConnectEsGprcServerBuilder.registerAll ConnectEsGprcServerBuilder.empty
          (tracedFrom 0 (c2fs ++ c2fK :: c2gs)))
        (.str "handlerCtx") (fun ctx => ⟨[c2fs.length + 1 + c2gs.length], c2p ctx⟩)
      = ⟨List.range (c2fs.length + 1),
          .error (GrpcException.create Code.unauthenticated "no auth" .undef)⟩ :=
  ⟨by decide, by decide,
    (context_chain_order_and_short_circuit c2fs c2gs c2fK c2p (.str "handlerCtx")
        (.str "derived1") (GrpcException.create Code.unauthenticated "no auth" .undef)
        (by decide) (by decide)).2.1⟩

/-- The span of the C3 theorems: the W3C Trace Context example identifiers. -/
def spanW3C : Span :=
  ⟨"0af7651916cd43dd8448eb211c80319c", "b7ad6b7169203331", true⟩

/-- C3 counterexample: with an active span the injected request headers carry
a `traceparent` entry but no `tracestate` entry, refuting the claim as stated
(that both traceparent and tracestate headers are injected from the span's
identifiers). -/
theorem client_injection_no_tracestate :
    headersGet (clientRequestHeaders (some spanW3C) []) "traceparent"
        = some "00-0af7651916cd43dd8448eb211c80319c-b7ad6b7169203331-01"
    ∧ headersGet (clientRequestHeaders (some spanW3C) []) "tracestate" = none := by
  decide

theorem traceFlagsHex_one : traceFlagsHex 1 = "01" := by decide

theorem traceFlagsHex_zero : traceFlagsHex 0 = "00" := by decide

/-- C3 (amended): each bound unary method is wrapped in a span named exactly
`GrpcClient.makeUnaryRequest(service.TypeName/MethodName)` with attributes
`rpc.system` = "grpc", `rpc.service` = the fully-qualified service name and
`rpc.method` = the method name; before issuing the request, with an active
span the caller headers are copied and a W3C `traceparent` header derived
from the span's trace and span identifiers is injected (a `tracestate` header
would only be injected if the locally-built span context carried trace state,
which it never does), the injected context being marked not remote; with no
active span the caller's headers are sent unmodified. -/
theorem client_span_and_header_injection
    (svc : ServiceDesc) (methodName : String) (md : MethodDesc)
    (hlook : svc.lookupMethod methodName = some md)
    (hkind : md.methodKind = .unary)
    (span : Span) (base : Headers)
    (hvalid : isSpanContextValid (spanContextOf span) = true) :
    makeExecutorMethod svc methodName
      = some ⟨"GrpcClient.makeUnaryRequest(" ++ (svc.typeName ++ "/" ++ md.name) ++ ")",
          [("rpc.system", "grpc"), ("rpc.service", svc.typeName), ("rpc.method", md.name)]⟩
    ∧ (spanContextOf span).isRemote = false
    ∧ (spanContextOf span).traceState = none
    ∧ clientRequestHeaders none base = base
    ∧ headersGet (clientRequestHeaders (some span) base) "traceparent"
        = some ("00-" ++ span.traceId ++ "-" ++ span.spanId ++ "-"
            ++ (if span.sampled then "01" else "00"))
    ∧ (∀ key : String, key ≠ "traceparent" →
        headersGet (clientRequestHeaders (some span) base) key = headersGet base key) := by
  have hflag : traceFlagsHex (if span.sampled then 1 else 0)
      = (if span.sampled then "01" else "00") := by
    cases hs : span.sampled <;> simp [traceFlagsHex_one, traceFlagsHex_zero]
  have hvalid2 : isSpanContextValid
      ⟨span.traceId, span.spanId, if span.sampled then 1 else 0, false, none⟩ = true := by
    simpa [spanContextOf] using hvalid
  have hinj : clientRequestHeaders (some span) base
      = headersSet base "traceparent"
          ("00-" ++ span.traceId ++ "-" ++ span.spanId ++ "-"
            ++ traceFlagsHex (if span.sampled then 1 else 0)) := by
    simp only [clientRequestHeaders, injectTraceContext, injectTraceContextWith,
      tryInjectBody, w3cInject, spanContextOf, hvalid2, if_true]
  refine ⟨?_, rfl, rfl, rfl, ?_, ?_⟩
  · simp only [makeExecutorMethod, hlook, hkind]
  · rw [hinj, headersGet_set_self, hflag]
  · intro key hk
    rw [hinj, headersGet_set_ne base "traceparent" key _ hk]

/-- The service used by the C3 witness. -/
def svcC3 : ServiceDesc :=
  ⟨"com.example.v1.HelloWorldAPI", [⟨"getGreeting", "GetGreeting", .unary⟩]⟩

/-- Witness for C3 (amended) at the concrete service `svcC3` and span
`spanW3C`. -/
theorem client_span_and_header_injection_witness :
    svcC3.lookupMethod "getGreeting" = some ⟨"getGreeting", "GetGreeting", .unary⟩
    ∧ MethodDesc.methodKind ⟨"getGreeting", "GetGreeting", .unary⟩ = .unary
    ∧ isSpanContextValid (spanContextOf spanW3C) = true
    ∧ makeExecutorMethod svcC3 "getGreeting"
        = some ⟨"GrpcClient.makeUnaryRequest(" ++ (svcC3.typeName ++ "/"
              ++ MethodDesc.name ⟨"getGreeting", "GetGreeting", .unary⟩) ++ ")",
            [("rpc.system", "grpc"), ("rpc.service", svcC3.typeName),
              ("rpc.method", MethodDesc.name ⟨"getGreeting", "GetGreeting", .unary⟩)]⟩ :=
  ⟨by decide, rfl, by decide,
    (client_span_and_header_injection svcC3 "getGreeting"
        ⟨"getGreeting", "GetGreeting", .unary⟩ (by decide) rfl spanW3C []
        (by decide)).1⟩

end EffectGrpc
